import Mathlib

/-!
Verification of the conservator query-builder core.

This file shallowly embeds the expression algebra, the typed field model and
the SELECT/INSERT/UPDATE/DELETE builders of the conservator crate
(src/conservator/src/expression.rs, field.rs, builder/{select,update,delete,insert}.rs
and the generated `Creatable` code from src/conservator_macro/src/creatable.rs)
and proves the stated rendering and type-state properties about them.

Strings are modelled as Lean `String`, Rust `Vec` as `List`, `usize` as `Nat`,
`Option` as `Option`.  The const-generic boolean type-state parameters of
`UpdateBuilder`/`DeleteBuilder` are modelled as `Bool` indices of the
corresponding Lean structures.
-/

namespace Conservator

/-- Joins a list of strings with a separator.  Models Rust's
`Vec::<String>::join` / `itertools::join`, used by the source both for SQL
parts and for placeholder lists. -/
def joinSep (sep : String) : List String → String
  | [] => ""
  | [s] => s
  | s :: rest => s ++ sep ++ joinSep sep rest

/-- Decimal digit characters of `n`, most significant first, computed with a
structural fuel argument (`fuel` must exceed `n`).  Together with `decStr`
this models Rust's `Display for usize` as used by `format!("${}", n)`. -/
def decCharsAux : Nat → Nat → List Char
  | 0, _ => []
  | fuel + 1, n =>
    if n < 10 then [Nat.digitChar n]
    else decCharsAux fuel (n / 10) ++ [Nat.digitChar (n % 10)]

/-- Decimal rendering of a natural number (models `format!("{}", n)`). -/
def decStr (n : Nat) : String := ⟨decCharsAux (n + 1) n⟩

/-- A positional placeholder `$n` (models `format!("${}", n)`). -/
def dollarParam (n : Nat) : String := "$" ++ decStr n

/-- Field metadata; models `FieldInfo` from src/conservator/src/expression.rs. -/
structure FieldInfo where
  name : String
  table : String
  is_primary_key : Bool
deriving Repr, DecidableEq

namespace FieldInfo

/-- `FieldInfo::quoted_name`: the column name wrapped in double quotes. -/
def quoted_name (f : FieldInfo) : String := "\"" ++ f.name ++ "\""

/-- `FieldInfo::qualified_name`: `table."name"`. -/
def qualified_name (f : FieldInfo) : String := f.table ++ ".\"" ++ f.name ++ "\""

end FieldInfo

/-- SQL comparison operators; models `Operator` from expression.rs. -/
inductive Operator where
  | Eq | Ne | Gt | Lt | Gte | Lte | Like | In | IsNull | IsNotNull | Between
deriving Repr, DecidableEq

/-- `Operator::to_sql`. -/
def Operator.to_sql : Operator → String
  | .Eq => "="
  | .Ne => "!="
  | .Gt => ">"
  | .Lt => "<"
  | .Gte => ">="
  | .Lte => "<="
  | .Like => "LIKE"
  | .In => "IN"
  | .IsNull => "IS NULL"
  | .IsNotNull => "IS NOT NULL"
  | .Between => "BETWEEN"

/-- Bound parameter values; models the `Value` enum from expression.rs.
The `f32`/`f64` payloads are both modelled with Lean's `Float`; no claim
depends on float arithmetic, values are opaque payloads to the renderer. -/
inductive Value where
  | Bool (b : Bool)
  | I16 (n : Int)
  | I32 (n : Int)
  | I64 (n : Int)
  | F32 (x : Float)
  | F64 (x : Float)
  | String (s : String)
  | Bytes (bs : List UInt8)
  | None

/-- Predicate trees; models the `Expression` enum from expression.rs. -/
inductive Expression where
  | Comparison (field : FieldInfo) (operator : Operator) (values : List Value)
  | And (left right : Expression)
  | Or (left right : Expression)

/-- A rendered SQL statement with its ordered bound values; models `SqlResult`. -/
structure SqlResult where
  sql : String
  values : List Value

namespace Expression

/-- `Expression::comparison`: a single-value comparison leaf. -/
def comparison (field : FieldInfo) (operator : Operator) (value : Value) : Expression :=
  .Comparison field operator [value]

/-- `Expression::comparison_no_value`: a zero-value leaf (IS NULL etc.). -/
def comparison_no_value (field : FieldInfo) (operator : Operator) : Expression :=
  .Comparison field operator []

/-- `Expression::comparison_multi`: a multi-value leaf (IN, BETWEEN). -/
def comparison_multi (field : FieldInfo) (operator : Operator) (values : List Value) :
    Expression :=
  .Comparison field operator values

/-- `Expression::and`. -/
def and (self other : Expression) : Expression := .And self other

/-- `Expression::or`. -/
def or (self other : Expression) : Expression := .Or self other

/-- `Expression::build_internal_with_qualifier`: renders the tree starting at
placeholder index `start_param`, returning `(sql, values, next_param_index)`.
When `use_qualified` is true the field reference is `table."column"`. -/
def build_internal_with_qualifier :
    Expression → (start_param : Nat) → (use_qualified : Bool) → String × List Value × Nat
  | .Comparison field operator values, start_param, use_qualified =>
    let field_name := if use_qualified then field.qualified_name else field.quoted_name
    let param_count := values.length
    let sql :=
      match operator with
      | .IsNull | .IsNotNull => field_name ++ " " ++ operator.to_sql
      | .In =>
        field_name ++ " IN (" ++
          joinSep ", " ((List.range param_count).map (fun i => dollarParam (start_param + i)))
          ++ ")"
      | .Between =>
        field_name ++ " BETWEEN " ++ dollarParam start_param ++ " AND " ++
          dollarParam (start_param + 1)
      | _ => field_name ++ " " ++ operator.to_sql ++ " " ++ dollarParam start_param
    (sql, values, start_param + param_count)
  | .And left right, start_param, use_qualified =>
    let l := left.build_internal_with_qualifier start_param use_qualified
    let r := right.build_internal_with_qualifier l.2.2 use_qualified
    ("(" ++ l.1 ++ " AND " ++ r.1 ++ ")", l.2.1 ++ r.2.1, r.2.2)
  | .Or left right, start_param, use_qualified =>
    let l := left.build_internal_with_qualifier start_param use_qualified
    let r := right.build_internal_with_qualifier l.2.2 use_qualified
    ("(" ++ l.1 ++ " OR " ++ r.1 ++ ")", l.2.1 ++ r.2.1, r.2.2)

/-- `Expression::build_internal`: unqualified rendering at a given start index. -/
def build_internal (e : Expression) (start_param : Nat) : String × List Value × Nat :=
  e.build_internal_with_qualifier start_param false

/-- Modelled from the spec: the public offset variant `build_with_offset`
(§4.3 "build_with_offset(start_index)") called by the SELECT and UPDATE
builders.  Its body is not under src/; per the spec it is the unqualified
rendering starting at the given index, identical to `build_internal`. -/
def build_with_offset (e : Expression) (start_param : Nat) : String × List Value × Nat :=
  e.build_internal start_param

/-- `Expression::build`: renders with placeholder numbering starting at 1. -/
def build (e : Expression) : SqlResult :=
  let r := e.build_internal 1
  ⟨r.1, r.2.1⟩

/-- `Expression::build_qualified`: qualified rendering starting at 1. -/
def build_qualified (e : Expression) : SqlResult :=
  let r := e.build_internal_with_qualifier 1 true
  ⟨r.1, r.2.1⟩

end Expression

/-- Conversion of native values into bound `Value`s; models the `IntoValue`
trait.  Instances mirror the source impls for the types used in this
development (`i64`/`bool`/`String`); every impl is total and pure. -/
class IntoValue (α : Type) where
  into_value : α → Value

instance : IntoValue Bool := ⟨Value.Bool⟩

instance : IntoValue Int := ⟨Value.I64⟩

instance : IntoValue String := ⟨Value.String⟩

/-- Typed column metadata; models `Field<T>` from src/conservator/src/field.rs.
The type parameter is phantom: it only constrains the comparison methods. -/
structure Field (α : Type) where
  name : String
  table : String
  is_primary_key : Bool

namespace Field

/-- `Field::new`. -/
def new (α : Type) (name table : String) (is_primary_key : Bool) : Field α :=
  ⟨name, table, is_primary_key⟩

/-- `Field::info`: forgets the phantom type parameter. -/
def info (f : Field α) : FieldInfo := ⟨f.name, f.table, f.is_primary_key⟩

/-- `Field::quoted_name`. -/
def quoted_name (f : Field α) : String := "\"" ++ f.name ++ "\""

/-- `Field::eq`. -/
def eq [IntoValue α] (f : Field α) (value : α) : Expression :=
  Expression.comparison f.info .Eq (IntoValue.into_value value)

/-- `Field::ne`. -/
def ne [IntoValue α] (f : Field α) (value : α) : Expression :=
  Expression.comparison f.info .Ne (IntoValue.into_value value)

/-- `Field::gt`. -/
def gt [IntoValue α] (f : Field α) (value : α) : Expression :=
  Expression.comparison f.info .Gt (IntoValue.into_value value)

/-- `Field::lt`. -/
def lt [IntoValue α] (f : Field α) (value : α) : Expression :=
  Expression.comparison f.info .Lt (IntoValue.into_value value)

/-- `Field::between`: low bound first, high bound second. -/
def between [IntoValue α] (f : Field α) (low high : α) : Expression :=
  Expression.comparison_multi f.info .Between
    [IntoValue.into_value low, IntoValue.into_value high]

/-- `Field::in_list`: converts each element in order and builds an `In` leaf. -/
def in_list [IntoValue α] (f : Field α) (values : List α) : Expression :=
  Expression.comparison_multi f.info .In (values.map IntoValue.into_value)

/-- `Field::<Option<T>>::is_null`. -/
def is_null (f : Field (Option α)) : Expression :=
  Expression.comparison_no_value f.info .IsNull

/-- `Field::<Option<T>>::is_not_null`. -/
def is_not_null (f : Field (Option α)) : Expression :=
  Expression.comparison_no_value f.info .IsNotNull

/-- `Field::<String>::like`. -/
def like (f : Field String) (pattern : String) : Expression :=
  Expression.comparison f.info .Like (Value.String pattern)

end Field

/-- ORDER BY direction; models `Order` from builder/mod.rs. -/
inductive Order where
  | Asc | Desc
deriving Repr, DecidableEq

/-- `Order::to_sql`. -/
def Order.to_sql : Order → String
  | .Asc => "ASC"
  | .Desc => "DESC"

/-- A field paired with a direction; models `OrderedField`. -/
structure OrderedField where
  field : FieldInfo
  order : Order

/-- JOIN kinds; models `JoinType` from builder/mod.rs. -/
inductive JoinType where
  | Inner | Left | Right
deriving Repr, DecidableEq

/-- `JoinType::to_sql`. -/
def JoinType.to_sql : JoinType → String
  | .Inner => "INNER JOIN"
  | .Left => "LEFT JOIN"
  | .Right => "RIGHT JOIN"

/-- A JOIN clause; models `JoinClause` from builder/mod.rs (the source field
`on` is renamed `on_expr` because `on` is a Lean keyword). -/
structure JoinClause where
  join_type : JoinType
  table : String
  on_expr : Expression

/-- SELECT builder state; models `SelectBuilder<CoreDomain, Returning>` from
builder/select.rs.  The two phantom type parameters are dropped: the
entity's `TABLE_NAME` and the returning type's `COLUMN_NAMES` (the only data
the renderer reads from them) are passed explicitly to `build`. -/
structure SelectBuilder where
  filter_expr : Option Expression
  order_by : List OrderedField
  limit : Option Nat
  offset : Option Nat
  group_by : List FieldInfo
  joins : List JoinClause

namespace SelectBuilder

/-- `SelectBuilder::new`. -/
def new : SelectBuilder := ⟨none, [], none, none, [], []⟩

/-- `SelectBuilder::filter`: first call sets, later calls AND-combine. -/
def filter (b : SelectBuilder) (expr : Expression) : SelectBuilder :=
  let combined :=
    match b.filter_expr with
    | some existing => existing.and expr
    | none => expr
  { b with filter_expr := some combined }

/-- `SelectBuilder::build` from builder/select.rs: accumulates SQL parts
(SELECT/FROM, joins, WHERE, GROUP BY, ORDER BY, LIMIT, OFFSET in the source's
push order), threading the placeholder index through join predicates and the
filter, and joins the parts with single spaces. -/
def build (b : SelectBuilder) (tableName : String) (columnNames : List String) : SqlResult :=
  let columns := joinSep ", " (columnNames.map (fun name => "\"" ++ name ++ "\""))
  let start : List String × List Value × Nat :=
    (["SELECT " ++ columns ++ " FROM " ++ tableName], [], 1)
  let afterJoins :=
    b.joins.foldl
      (fun acc j =>
        match acc with
        | (parts, vals, param_idx) =>
          match j.on_expr.build_with_offset param_idx with
          | (on_sql, on_values, next_idx) =>
            (parts ++ [j.join_type.to_sql ++ " " ++ j.table ++ " ON " ++ on_sql],
             vals ++ on_values, next_idx))
      start
  let afterWhere :=
    match b.filter_expr, afterJoins with
    | some expr, (parts, vals, param_idx) =>
      match expr.build_with_offset param_idx with
      | (where_sql, where_values, next_idx) =>
        (parts ++ ["WHERE " ++ where_sql], vals ++ where_values, next_idx)
    | none, acc => acc
  let afterGroup :=
    if b.group_by.isEmpty then afterWhere.1
    else afterWhere.1 ++
      ["GROUP BY " ++ joinSep ", " (b.group_by.map FieldInfo.quoted_name)]
  let afterOrder :=
    if b.order_by.isEmpty then afterGroup
    else afterGroup ++
      ["ORDER BY " ++
        joinSep ", "
          (b.order_by.map (fun of => of.field.quoted_name ++ " " ++ of.order.to_sql))]
  let afterLimit :=
    match b.limit with
    | some n => afterOrder ++ ["LIMIT " ++ decStr n]
    | none => afterOrder
  let afterOffset :=
    match b.offset with
    | some n => afterLimit ++ ["OFFSET " ++ decStr n]
    | none => afterLimit
  ⟨joinSep " " afterOffset, afterWhere.2.1⟩

end SelectBuilder

/-- UPDATE builder state; models `UpdateBuilder<T, SET_CALLED, FILTER_CALLED>`
from builder/update.rs.  The two const-generic booleans become `Bool` indices;
the entity parameter is dropped and its `TABLE_NAME` is passed to `build`. -/
structure UpdateBuilder (SET_CALLED FILTER_CALLED : Bool) where
  updates : List (FieldInfo × Value)
  filter_expr : Option Expression

namespace UpdateBuilder

/-- `UpdateBuilder::new` / `Default`: only available at state `(false, false)`. -/
def new : UpdateBuilder false false := ⟨[], none⟩

/-- `UpdateBuilder::set`: appends an assignment and moves `SET_CALLED` to true. -/
def set [IntoValue α] (b : UpdateBuilder S F) (field : Field α) (value : α) :
    UpdateBuilder true F :=
  ⟨b.updates ++ [(field.info, IntoValue.into_value value)], b.filter_expr⟩

/-- `UpdateBuilder::filter`: AND-combines with any existing filter and moves
`FILTER_CALLED` to true. -/
def filter (b : UpdateBuilder S F) (expr : Expression) : UpdateBuilder S true :=
  ⟨b.updates,
   some (match b.filter_expr with
         | some filter_expr => filter_expr.and expr
         | none => expr)⟩

/-- `UpdateBuilder::build`, implemented only for state `(true, true)`:
renders `UPDATE table SET ... WHERE ...`, numbering SET assignments from `$1`
and rendering the filter with the continuing offset. -/
def build (b : UpdateBuilder true true) (tableName : String) : SqlResult :=
  let start : String × List Value × Nat := ("UPDATE " ++ tableName ++ " SET ", [], 1)
  let afterSet :=
    b.updates.foldl
      (fun acc fv =>
        match acc, fv with
        | (sql, values, param_idx), (field, value) =>
          (sql ++ (if param_idx > 1 then ", " else "") ++
             "\"" ++ field.name ++ "\" = " ++ dollarParam param_idx,
           values ++ [value], param_idx + 1))
      start
  match b.filter_expr with
  | some filter_expr =>
    match filter_expr.build_with_offset afterSet.2.2 with
    | (filter_sql, filter_values, _) =>
      ⟨afterSet.1 ++ " WHERE " ++ filter_sql, afterSet.2.1 ++ filter_values⟩
  | none => ⟨afterSet.1, afterSet.2.1⟩

end UpdateBuilder

/-- DELETE builder state; models `DeleteBuilder<T, FILTER_SET>` from
builder/delete.rs.  The const-generic boolean becomes a `Bool` index. -/
structure DeleteBuilder (FILTER_SET : Bool) where
  filter_expr : Option Expression

namespace DeleteBuilder

/-- `DeleteBuilder::new` / `Default`: the source implements both for every
`FILTER_SET`, so a builder in any type-state — including `true` — can be
constructed directly, always with an absent filter. -/
def new : DeleteBuilder F := ⟨none⟩

/-- `DeleteBuilder::filter`: AND-combines and moves `FILTER_SET` to true. -/
def filter (b : DeleteBuilder F) (expr : Expression) : DeleteBuilder true :=
  ⟨some (match b.filter_expr with
         | some filter_expr => filter_expr.and expr
         | none => expr)⟩

/-- `DeleteBuilder::build`, implemented only for `FILTER_SET = true`:
`DELETE FROM table` followed by a WHERE clause when a filter is stored. -/
def build (b : DeleteBuilder true) (tableName : String) : SqlResult :=
  match b.filter_expr with
  | some filter_expr =>
    let result := filter_expr.build
    ⟨"DELETE FROM " ++ tableName ++ " WHERE " ++ result.sql, result.values⟩
  | none => ⟨"DELETE FROM " ++ tableName, []⟩

end DeleteBuilder

/-- `Creatable::get_batch_insert_sql` as generated by the derive macro
(src/conservator_macro/src/creatable.rs): one parenthesized VALUES tuple for
row `idx`, with `fields_len` placeholders `$(idx*fields_len+i+1)` accumulated
left to right and comma-separated. -/
def get_batch_insert_sql (fields_len idx : Nat) : String :=
  "(" ++
    ((List.range fields_len).foldl
      (fun acc i =>
        acc ++ (if i > 0 then "," else "") ++ "$" ++ decStr (idx * fields_len + i + 1))
      "") ++ ")"

/-- Modelled from the spec: `Creatable::get_batch_values` (§3 "the ordered
Value sequence for its fields (both single-row and batch/offset variants)").
Its body is not under src/ (only its callers in builder/insert.rs are); per
the spec it returns the payload's field values in declaration order — the row
index only shifts placeholder numbering, not the value sequence.  A payload is
modelled as its ordered field-value list. -/
def get_batch_values (item : List Value) (_idx : Nat) : List Value := item

/-- `InsertManyBuilder::build_values_sql`: one tuple per payload at its
enumeration index, joined with `", "`. -/
def build_values_sql (fields_len : Nat) (data : List (List Value)) : String :=
  joinSep ", " (data.enum.map (fun p => get_batch_insert_sql fields_len p.1))

/-- Value collection loop shared by the `InsertManyBuilder` terminal
operations: extends an accumulator with each payload's batch values in
enumeration order. -/
def collect_batch_values (data : List (List Value)) : List Value :=
  data.enum.foldl (fun acc p => acc ++ get_batch_values p.2 p.1) []

/-- `InsertManyBuilder::returning_pk`, up to its executor round-trip: on an
empty payload list it short-circuits to `Ok(Vec::new())` (`Sum.inl []`)
without producing SQL; otherwise it produces the batch INSERT ... RETURNING
"pk" statement and the row-major value sequence (`Sum.inr`). -/
def returning_pk_run (α : Type) (tableName columns pkFieldName : String) (fields_len : Nat)
    (data : List (List Value)) : Sum (List α) (String × List Value) :=
  if data.isEmpty then Sum.inl []
  else
    Sum.inr
      ("INSERT INTO " ++ tableName ++ " " ++ columns ++ " VALUES " ++
         build_values_sql fields_len data ++ " RETURNING \"" ++ pkFieldName ++ "\"",
       collect_batch_values data)

/-- Helper `returning_columns` from builder/insert.rs. -/
def returning_columns (columnNames : List String) : String :=
  joinSep ", " (columnNames.map (fun name => "\"" ++ name ++ "\""))

/-- `InsertManyBuilder::returning_entity`, up to its executor round-trip:
empty input short-circuits to `Ok(Vec::new())` without producing SQL. -/
def returning_entity_run (α : Type) (tableName columns : String)
    (columnNames : List String) (fields_len : Nat) (data : List (List Value)) :
    Sum (List α) (String × List Value) :=
  if data.isEmpty then Sum.inl []
  else
    Sum.inr
      ("INSERT INTO " ++ tableName ++ " " ++ columns ++ " VALUES " ++
         build_values_sql fields_len data ++ " RETURNING " ++ returning_columns columnNames,
       collect_batch_values data)

/-- `InsertManyBuilder::execute`, up to its executor round-trip: empty input
short-circuits to `Ok(0)` without producing SQL. -/
def execute_run (tableName columns : String) (fields_len : Nat)
    (data : List (List Value)) : Sum Nat (String × List Value) :=
  if data.isEmpty then Sum.inl 0
  else
    Sum.inr
      ("INSERT INTO " ++ tableName ++ " " ++ columns ++ " VALUES " ++
         build_values_sql fields_len data,
       collect_batch_values data)

/-- State machine reading the `$n` placeholders of an SQL text left to right:
the state holds the number accumulated since the last `$`.  Any maximal digit
run following a `$` is read as one decimal placeholder number. -/
def phRun : List Char → Option Nat → List Nat
  | [], none => []
  | [], some n => [n]
  | c :: cs, none => if c = '$' then phRun cs (some 0) else phRun cs none
  | c :: cs, some n =>
    if c.isDigit then phRun cs (some (10 * n + (c.toNat - 48)))
    else if c = '$' then n :: phRun cs (some 0)
    else n :: phRun cs none

/-- The `$n` placeholder numbers of an SQL string in left-to-right order. -/
def extractPlaceholders (s : String) : List Nat := phRun s.data none

/-- The first character, if any, is not a decimal digit. -/
def headNotDigit (t : List Char) : Prop :=
  ∀ c, t.head? = some c → c.isDigit = false

/-- The string contains no `$` character (identifiers are schema-controlled,
spec §4.2, so this holds of every field and table name in practice). -/
def noDollarStr (s : String) : Bool := s.data.all (fun c => !(c == '$'))

/-- The operator/value-count invariant of the spec's Expression data model
(§3): 0 values for IS NULL / IS NOT NULL, exactly 2 for BETWEEN, any number
for IN, exactly 1 for every other operator. -/
def Operator.wfArity : Operator → Nat → Bool
  | .IsNull, n => n == 0
  | .IsNotNull, n => n == 0
  | .Between, n => n == 2
  | .In, _ => true
  | _, n => n == 1

/-- A tree is well-formed when every comparison leaf satisfies the spec's
arity invariant. -/
def Expression.wfB : Expression → Bool
  | .Comparison _ operator values => operator.wfArity values.length
  | .And left right => left.wfB && right.wfB
  | .Or left right => left.wfB && right.wfB

/-- Every field and table name in the tree is `$`-free. -/
def Expression.namesNoDollar : Expression → Bool
  | .Comparison field _ _ => noDollarStr field.name && noDollarStr field.table
  | .And left right => left.namesNoDollar && right.namesNoDollar
  | .Or left right => left.namesNoDollar && right.namesNoDollar

/-- Modelled from the spec (§4.4), for comparison with `SelectBuilder.build`:
renders the join clauses in the order added, each `<JOIN_KIND> <table> ON
<predicate>` with the predicate's placeholder offset continuing from the
previous clauses; returns the clause strings, the concatenated values and the
next free placeholder index. -/
def specJoinClauses : List JoinClause → Nat → List String × List Value × Nat
  | [], i => ([], [], i)
  | j :: rest, i =>
    let r := j.on_expr.build_with_offset i
    let tail := specJoinClauses rest r.2.2
    ((j.join_type.to_sql ++ " " ++ j.table ++ " ON " ++ r.1) :: tail.1,
     r.2.1 ++ tail.2.1, tail.2.2)

/-- Modelled from the spec (§4.4), for comparison with `SelectBuilder.build`:
`SELECT <quoted column list> FROM <table>`, then one clause per join in the
order added, then `WHERE <filter>` if present, then `GROUP BY` if non-empty,
then `ORDER BY` if non-empty, then `LIMIT` if set, then `OFFSET` if set;
placeholder numbering starts at 1, threads through the joins first and then
the filter, and the value list is concatenated in that same order. -/
def selectBuildSpec (b : SelectBuilder) (tableName : String) (columnNames : List String) :
    SqlResult :=
  let selectPart :=
    "SELECT " ++ joinSep ", " (columnNames.map (fun name => "\"" ++ name ++ "\"")) ++
      " FROM " ++ tableName
  let jr := specJoinClauses b.joins 1
  let wr :=
    match b.filter_expr with
    | some e =>
      let r := e.build_with_offset jr.2.2
      (["WHERE " ++ r.1], r.2.1)
    | none => ([], [])
  let groupParts :=
    if b.group_by.isEmpty then []
    else ["GROUP BY " ++ joinSep ", " (b.group_by.map FieldInfo.quoted_name)]
  let orderParts :=
    if b.order_by.isEmpty then []
    else
      ["ORDER BY " ++
        joinSep ", "
          (b.order_by.map (fun of => of.field.quoted_name ++ " " ++ of.order.to_sql))]
  let limitParts := match b.limit with | some n => ["LIMIT " ++ decStr n] | none => []
  let offsetParts := match b.offset with | some n => ["OFFSET " ++ decStr n] | none => []
  ⟨joinSep " "
      ([selectPart] ++ jr.1 ++ wr.1 ++ groupParts ++ orderParts ++ limitParts ++ offsetParts),
   jr.2.1 ++ wr.2⟩

/-- The SET-assignment fragments `"f" = $k`, numbering the given assignments
consecutively from `k` in list order (spec §4.6 wording). -/
def assignsFrom : Nat → List (FieldInfo × Value) → List String
  | _, [] => []
  | k, (f, _) :: rest => ("\"" ++ f.name ++ "\" = " ++ dollarParam k) :: assignsFrom (k + 1) rest

/-- Recursive characterization of the SET-clause string accumulated by
`UpdateBuilder.build`'s fold: each assignment at parameter index `k` is
preceded by `", "` exactly when `k > 1`. -/
def setClauseFrom : Nat → List (FieldInfo × Value) → String
  | _, [] => ""
  | k, (f, _) :: rest =>
    (if k > 1 then ", " else "") ++ "\"" ++ f.name ++ "\" = " ++ dollarParam k ++
      setClauseFrom (k + 1) rest

/-- A configuration call on an `UpdateBuilder`, for reasoning about which
type-states the chainable API can reach. -/
inductive UpdateCall where
  | set (field : FieldInfo) (value : Value)
  | filter (expr : Expression)

/-- The const-generic flags `(SET_CALLED, FILTER_CALLED)` reached by applying
a call sequence to `UpdateBuilder::new` (which starts at `(false, false)`):
per the source signatures, `set` moves the first flag to true and `filter`
the second. -/
def updateFlagsAfter (calls : List UpdateCall) : Bool × Bool :=
  calls.foldl
    (fun flags c =>
      match c with
      | .set _ _ => (true, flags.2)
      | .filter _ => (flags.1, true))
    (false, false)

/-- `build`/`execute` are implemented only on `UpdateBuilder<T, true, true>`. -/
def updateBuildExposed (flags : Bool × Bool) : Prop := flags = (true, true)

/-- A configuration call on a `DeleteBuilder`. -/
inductive DeleteCall where
  | filter (expr : Expression)

/-- The const-generic flag `FILTER_SET` reached by applying a call sequence to
a `DeleteBuilder` constructed by `new`/`Default` at flag `start` (the source
implements the constructor for every `FILTER_SET`): per the source signature,
`filter` moves the flag to true. -/
def deleteFlagAfter (start : Bool) (calls : List DeleteCall) : Bool :=
  calls.foldl
    (fun _flag c =>
      match c with
      | .filter _ => true)
    start

/-- `build`/`execute` are implemented only on `DeleteBuilder<T, true>`. -/
def deleteBuildExposed (flag : Bool) : Prop := flag = true

/-!  Sanity checks mirroring the crate's unit tests. -/

example :
    (Expression.comparison ⟨"id", "users", true⟩ .Eq (Value.I32 42)).build.sql
      = "\"id\" = $1" := by decide

example :
    ((Expression.comparison ⟨"id", "users", true⟩ .Eq (Value.I32 1)).and
        (Expression.comparison ⟨"name", "users", false⟩ .Like (Value.String "John%"))).build.sql
      = "(\"id\" = $1 AND \"name\" LIKE $2)" := by decide

example :
    (((Expression.comparison ⟨"id", "users", true⟩ .Eq (Value.I32 1)).and
        (Expression.comparison ⟨"name", "users", false⟩ .Like (Value.String "John%"))).or
        (Expression.comparison_no_value ⟨"email", "users", false⟩ .IsNull)).build.sql
      = "((\"id\" = $1 AND \"name\" LIKE $2) OR \"email\" IS NULL)" := by decide

example :
    (Expression.comparison_multi ⟨"status", "users", false⟩ .In
        [Value.I32 1, Value.I32 2, Value.I32 3]).build.sql
      = "\"status\" IN ($1, $2, $3)" := by decide

example :
    (Expression.comparison_multi ⟨"age", "users", false⟩ .Between
        [Value.I32 18, Value.I32 65]).build.sql
      = "\"age\" BETWEEN $1 AND $2" := by decide

example :
    (Expression.comparison ⟨"id", "users", true⟩ .Eq (Value.I32 1)).build_qualified.sql
      = "users.\"id\" = $1" := by decide

example :
    (SelectBuilder.new.build "users" ["id", "name", "email"]).sql
      = "SELECT \"id\", \"name\", \"email\" FROM users" := by decide

example :
    ((SelectBuilder.new.filter
        (Expression.comparison ⟨"id", "users", true⟩ .Gt (Value.I32 10))).build "users"
        ["id", "name", "email"]).sql
      = "SELECT \"id\", \"name\", \"email\" FROM users WHERE \"id\" > $1" := by decide

example :
    (({ SelectBuilder.new with
          filter_expr := some (Expression.comparison ⟨"id", "users", true⟩ .Gt (Value.I32 10)),
          order_by := [⟨⟨"name", "users", false⟩, .Desc⟩],
          limit := some 50, offset := some 100 } : SelectBuilder).build "users"
        ["id", "name", "email"]).sql
      = "SELECT \"id\", \"name\", \"email\" FROM users WHERE \"id\" > $1 ORDER BY \"name\" DESC LIMIT 50 OFFSET 100" := by
  decide

example :
    (((UpdateBuilder.new.set (Field.new Int "name" "users" false) (0 : Int)).filter
        (Expression.comparison ⟨"id", "users", true⟩ .Eq (Value.I32 1))).build "users").sql
      = "UPDATE users SET \"name\" = $1 WHERE \"id\" = $2" := by decide

example :
    (((DeleteBuilder.new : DeleteBuilder false).filter
        (Expression.comparison ⟨"id", "users", true⟩ .Eq (Value.I32 1))).build "users").sql
      = "DELETE FROM users WHERE \"id\" = $1" := by decide

example : get_batch_insert_sql 2 0 = "($1,$2)" := by decide

example : get_batch_insert_sql 2 2 = "($5,$6)" := by decide

example :
    build_values_sql 2 [[Value.I32 1, Value.I32 2], [Value.I32 3, Value.I32 4],
        [Value.I32 5, Value.I32 6]]
      = "($1,$2), ($3,$4), ($5,$6)" := by decide

/-!  Lemmas about the placeholder reader. -/

theorem headNotDigit_nil : headNotDigit [] := by
  intro c h
  simp [List.head?] at h

theorem headNotDigit_cons {c : Char} {cs : List Char} (h : c.isDigit = false) :
    headNotDigit (c :: cs) := by
  intro d hd
  simp [List.head?] at hd
  simpa [hd] using h

theorem phRun_append_skip (s t : List Char) (h : ∀ c ∈ s, c ≠ '$') :
    phRun (s ++ t) none = phRun t none := by
  induction s with
  | nil => rfl
  | cons c cs ih =>
    have hc : c ≠ '$' := h c (by simp)
    have hrest : ∀ c ∈ cs, c ≠ '$' := fun d hd => h d (by simp [hd])
    simp [phRun, hc, ih hrest]

theorem phRun_skip_str (s : String) (t : List Char) (h : noDollarStr s = true) :
    phRun (s.data ++ t) none = phRun t none := by
  refine phRun_append_skip s.data t ?_
  intro c hc
  have := (List.all_eq_true.mp h) c hc
  simpa using this

theorem phRun_flush (t : List Char) (n : Nat) (ht : headNotDigit t) :
    phRun t (some n) = n :: phRun t none := by
  cases t with
  | nil => rfl
  | cons c cs =>
    have hc : c.isDigit = false := ht c (by simp [List.head?])
    by_cases hd : c = '$'
    · simp [phRun, hc, hd]
    · simp [phRun, hc, hd]

theorem phRun_digits (ds : List Char) (rest : List Char) (a : Nat)
    (h : ∀ c ∈ ds, c.isDigit = true) :
    phRun (ds ++ rest) (some a) =
      phRun rest (some (ds.foldl (fun x c => 10 * x + (c.toNat - 48)) a)) := by
  induction ds generalizing a with
  | nil => rfl
  | cons c cs ih =>
    have hc : c.isDigit = true := h c (by simp)
    have hrest : ∀ c ∈ cs, c.isDigit = true := fun d hd => h d (by simp [hd])
    simp [phRun, hc, ih _ hrest]

theorem digitChar_isDigit : ∀ n < 10, (Nat.digitChar n).isDigit = true := by decide

theorem digitChar_val : ∀ n < 10, (Nat.digitChar n).toNat - 48 = n := by decide

theorem decCharsAux_digit :
    ∀ (fuel n : Nat), n < fuel → ∀ c ∈ decCharsAux fuel n, c.isDigit = true := by
  intro fuel
  induction fuel with
  | zero => intro n hn; omega
  | succ fuel ih =>
    intro n hn c hc
    by_cases hsmall : n < 10
    · simp [decCharsAux, hsmall] at hc
      subst hc
      exact digitChar_isDigit n hsmall
    · simp [decCharsAux, hsmall] at hc
      rcases hc with hc | hc
      · have hdiv : n / 10 < n := Nat.div_lt_self (by omega) (by omega)
        exact ih (n / 10) (by omega) c hc
      · subst hc
        exact digitChar_isDigit (n % 10) (Nat.mod_lt n (by omega))

theorem decCharsAux_foldl :
    ∀ (fuel n a : Nat), n < fuel →
      (decCharsAux fuel n).foldl (fun x c => 10 * x + (c.toNat - 48)) a
        = a * 10 ^ (decCharsAux fuel n).length + n := by
  intro fuel
  induction fuel with
  | zero => intro n a hn; omega
  | succ fuel ih =>
    intro n a hn
    by_cases hsmall : n < 10
    · simp [decCharsAux, hsmall, List.foldl, digitChar_val n hsmall]
      omega
    · have hdiv : n / 10 < n := Nat.div_lt_self (by omega) (by omega)
      have hlt : n / 10 < fuel := by omega
      simp only [decCharsAux, hsmall, if_false, List.foldl_append, List.foldl,
        List.length_append, List.length_cons, List.length_nil]
      rw [ih (n / 10) a hlt]
      rw [digitChar_val (n % 10) (Nat.mod_lt n (by omega))]
      set L := (decCharsAux fuel (n / 10)).length with hL
      calc 10 * (a * 10 ^ L + n / 10) + n % 10
          = 10 * (a * 10 ^ L) + (10 * (n / 10) + n % 10) := by ring
        _ = 10 * (a * 10 ^ L) + n := by rw [Nat.div_add_mod]
        _ = a * 10 ^ (L + 1) + n := by ring

theorem decStr_digits (n : Nat) : ∀ c ∈ (decStr n).data, c.isDigit = true :=
  decCharsAux_digit (n + 1) n (Nat.lt_succ_self n)

theorem decStr_foldl (n : Nat) :
    (decStr n).data.foldl (fun x c => 10 * x + (c.toNat - 48)) 0 = n := by
  have := decCharsAux_foldl (n + 1) n 0 (Nat.lt_succ_self n)
  simpa [decStr] using this

theorem dollarParam_data (n : Nat) : (dollarParam n).data = '$' :: (decStr n).data := rfl

theorem phRun_dollarParam (n : Nat) (rest : List Char) :
    phRun ((dollarParam n).data ++ rest) none = phRun rest (some n) := by
  rw [dollarParam_data]
  simp only [List.cons_append]
  show phRun ('$' :: ((decStr n).data ++ rest)) none = phRun rest (some n)
  rw [show phRun ('$' :: ((decStr n).data ++ rest)) none
        = phRun ((decStr n).data ++ rest) (some 0) by simp [phRun]]
  rw [phRun_digits _ _ _ (decStr_digits n), decStr_foldl]

theorem quoted_name_noDollar (f : FieldInfo) (h : noDollarStr f.name = true) :
    noDollarStr f.quoted_name = true := by
  have hn : ∀ c ∈ f.name.data, (!(c == '$')) = true := List.all_eq_true.mp h
  refine List.all_eq_true.mpr ?_
  intro c hc
  have : f.quoted_name.data = '"' :: (f.name.data ++ ['"']) := by
    simp [FieldInfo.quoted_name]
  rw [this] at hc
  simp at hc
  rcases hc with hc | hc | hc
  · simp [hc]
  · simpa using hn c hc
  · simp [hc]

theorem qualified_name_noDollar (f : FieldInfo) (h : noDollarStr f.name = true)
    (ht : noDollarStr f.table = true) : noDollarStr f.qualified_name = true := by
  have hn : ∀ c ∈ f.name.data, (!(c == '$')) = true := List.all_eq_true.mp h
  have htb : ∀ c ∈ f.table.data, (!(c == '$')) = true := List.all_eq_true.mp ht
  refine List.all_eq_true.mpr ?_
  intro c hc
  have : f.qualified_name.data = f.table.data ++ ('.' :: '"' :: (f.name.data ++ ['"'])) := by
    simp [FieldInfo.qualified_name]
  rw [this] at hc
  simp at hc
  rcases hc with hc | hc | hc | hc | hc
  · simpa using htb c hc
  · simp [hc]
  · simp [hc]
  · simpa using hn c hc
  · simp [hc]

theorem noDollarStr_append (s t : String) (hs : noDollarStr s = true)
    (ht : noDollarStr t = true) : noDollarStr (s ++ t) = true := by
  refine List.all_eq_true.mpr ?_
  intro c hc
  rw [String.data_append] at hc
  rcases List.mem_append.mp hc with h | h
  · exact List.all_eq_true.mp hs c h
  · exact List.all_eq_true.mp ht c h

/-- `(next index) = (start index) + (number of collected values)`, for every
tree and starting index: the renderer advances the placeholder cursor by
exactly the number of values it linearizes. -/
theorem build_internal_next (e : Expression) (i : Nat) (q : Bool) :
    (e.build_internal_with_qualifier i q).2.2
      = i + (e.build_internal_with_qualifier i q).2.1.length := by
  induction e generalizing i with
  | Comparison f op vs => simp [Expression.build_internal_with_qualifier]
  | And l r ihl ihr =>
    simp only [Expression.build_internal_with_qualifier, List.length_append]
    rw [ihr, ihl]
    omega
  | Or l r ihl ihr =>
    simp only [Expression.build_internal_with_qualifier, List.length_append]
    rw [ihr, ihl]
    omega

theorem ph_in_list (ns : List Nat) (t : List Char) (ht : headNotDigit t) :
    phRun ((joinSep ", " (ns.map dollarParam)).data ++ t) none = ns ++ phRun t none := by
  induction ns generalizing t with
  | nil => simp [joinSep]
  | cons n tail ih =>
    cases tail with
    | nil =>
      simp only [List.map, joinSep]
      rw [phRun_dollarParam, phRun_flush _ _ ht]
      simp
    | cons m rest =>
      have hstep : joinSep ", " ((n :: m :: rest).map dollarParam)
          = dollarParam n ++ ", " ++ joinSep ", " ((m :: rest).map dollarParam) := by
        simp [joinSep]
      rw [hstep]
      have hdata :
          (dollarParam n ++ ", " ++ joinSep ", " ((m :: rest).map dollarParam)).data ++ t
            = (dollarParam n).data ++
                ((", " : String).data ++
                  ((joinSep ", " ((m :: rest).map dollarParam)).data ++ t)) := by
        simp [String.data_append]
      rw [hdata, phRun_dollarParam]
      have h1 : phRun ((", " : String).data ++
            ((joinSep ", " ((m :: rest).map dollarParam)).data ++ t)) (some n)
          = n :: phRun ((joinSep ", " ((m :: rest).map dollarParam)).data ++ t) none := by
        have hcomma : ((", " : String).data : List Char) = [',', ' '] := rfl
        rw [hcomma]
        rw [phRun_flush ([',', ' '] ++ _) n (headNotDigit_cons (by decide))]
        simp [phRun]
      rw [h1, ih t ht]
      simp

theorem phRun_cons_ne (c : Char) (cs : List Char) (h : c ≠ '$') :
    phRun (c :: cs) none = phRun cs none := by simp [phRun, h]

theorem ph_single_value (pre : String) (hpre : noDollarStr pre = true) (i : Nat)
    (t : List Char) (ht : headNotDigit t) :
    phRun ((pre ++ dollarParam i).data ++ t) none = i :: phRun t none := by
  rw [String.data_append, List.append_assoc, phRun_skip_str _ _ hpre, phRun_dollarParam,
    phRun_flush _ _ ht]

theorem build_internal_and_eq (l r : Expression) (i : Nat) (q : Bool) :
    (Expression.And l r).build_internal_with_qualifier i q
      = ("(" ++ (l.build_internal_with_qualifier i q).1 ++ " AND " ++
           (r.build_internal_with_qualifier (l.build_internal_with_qualifier i q).2.2 q).1
           ++ ")",
         (l.build_internal_with_qualifier i q).2.1 ++
           (r.build_internal_with_qualifier (l.build_internal_with_qualifier i q).2.2 q).2.1,
         (r.build_internal_with_qualifier (l.build_internal_with_qualifier i q).2.2 q).2.2) :=
  rfl

theorem build_internal_or_eq (l r : Expression) (i : Nat) (q : Bool) :
    (Expression.Or l r).build_internal_with_qualifier i q
      = ("(" ++ (l.build_internal_with_qualifier i q).1 ++ " OR " ++
           (r.build_internal_with_qualifier (l.build_internal_with_qualifier i q).2.2 q).1
           ++ ")",
         (l.build_internal_with_qualifier i q).2.1 ++
           (r.build_internal_with_qualifier (l.build_internal_with_qualifier i q).2.2 q).2.1,
         (r.build_internal_with_qualifier (l.build_internal_with_qualifier i q).2.2 q).2.2) :=
  rfl

/-- Main placeholder-alignment induction: rendering a well-formed tree whose
identifiers are `$`-free, starting at index `i`, yields SQL whose placeholder
numbers (continued by any non-digit-headed suffix `t`) are exactly
`i, i+1, ..., i+m-1` for `m` the number of collected values. -/
theorem ph_build_internal (e : Expression) :
    ∀ (i : Nat) (q : Bool) (t : List Char), e.wfB = true → e.namesNoDollar = true →
      headNotDigit t →
      phRun ((e.build_internal_with_qualifier i q).1.data ++ t) none
        = List.range' i (e.build_internal_with_qualifier i q).2.1.length ++ phRun t none := by
  induction e with
  | Comparison f op vs =>
    intro i q t hw hd ht
    simp only [Expression.namesNoDollar, Bool.and_eq_true] at hd
    have hfn : noDollarStr (if q then f.qualified_name else f.quoted_name) = true := by
      cases q
      · simpa using quoted_name_noDollar f hd.1
      · simpa using qualified_name_noDollar f hd.1 hd.2
    cases op
    case In =>
      simp only [Expression.build_internal_with_qualifier]
      have hmap : (List.range vs.length).map (fun j => dollarParam (i + j))
          = (List.range' i vs.length).map dollarParam := by
        rw [List.range'_eq_map_range, List.map_map]
        rfl
      rw [hmap]
      have hpre : noDollarStr ((if q then f.qualified_name else f.quoted_name) ++ " IN (")
          = true := noDollarStr_append _ _ hfn (by decide)
      have hdata :
          (((if q then f.qualified_name else f.quoted_name) ++ " IN (" ++
              joinSep ", " ((List.range' i vs.length).map dollarParam) ++ ")").data ++ t)
            = ((if q then f.qualified_name else f.quoted_name) ++ " IN (").data ++
                ((joinSep ", " ((List.range' i vs.length).map dollarParam)).data ++
                  (')' :: t)) := by
        simp [String.data_append]
      rw [hdata, phRun_skip_str _ _ hpre,
        ph_in_list _ _ (headNotDigit_cons (by decide)),
        phRun_cons_ne _ _ (by decide)]
    case IsNull =>
      simp only [Expression.build_internal_with_qualifier, Operator.to_sql]
      have hlen : vs.length = 0 := by simpa [Operator.wfArity, Expression.wfB] using hw
      have hpre : noDollarStr ((if q then f.qualified_name else f.quoted_name) ++ " " ++
          "IS NULL") = true :=
        noDollarStr_append _ _ (noDollarStr_append _ _ hfn (by decide)) (by decide)
      rw [hlen, phRun_skip_str _ _ hpre]
      simp
    case IsNotNull =>
      simp only [Expression.build_internal_with_qualifier, Operator.to_sql]
      have hlen : vs.length = 0 := by simpa [Operator.wfArity, Expression.wfB] using hw
      have hpre : noDollarStr ((if q then f.qualified_name else f.quoted_name) ++ " " ++
          "IS NOT NULL") = true :=
        noDollarStr_append _ _ (noDollarStr_append _ _ hfn (by decide)) (by decide)
      rw [hlen, phRun_skip_str _ _ hpre]
      simp
    case Between =>
      simp only [Expression.build_internal_with_qualifier]
      have hlen : vs.length = 2 := by simpa [Operator.wfArity, Expression.wfB] using hw
      have hpre : noDollarStr ((if q then f.qualified_name else f.quoted_name) ++
          " BETWEEN ") = true := noDollarStr_append _ _ hfn (by decide)
      have hdata :
          (((if q then f.qualified_name else f.quoted_name) ++ " BETWEEN " ++
              dollarParam i ++ " AND " ++ dollarParam (i + 1)).data ++ t)
            = ((if q then f.qualified_name else f.quoted_name) ++ " BETWEEN ").data ++
                ((dollarParam i).data ++
                  (' ' :: 'A' :: 'N' :: 'D' :: ' ' :: ((dollarParam (i + 1)).data ++ t))) := by
        simp [String.data_append]
      rw [hlen, hdata, phRun_skip_str _ _ hpre, phRun_dollarParam,
        phRun_flush _ _ (headNotDigit_cons (by decide)),
        phRun_cons_ne _ _ (by decide), phRun_cons_ne _ _ (by decide),
        phRun_cons_ne _ _ (by decide), phRun_cons_ne _ _ (by decide),
        phRun_cons_ne _ _ (by decide), phRun_dollarParam, phRun_flush _ _ ht]
      simp [List.range']
    all_goals
      simp only [Expression.build_internal_with_qualifier, Operator.to_sql]
    case Eq =>
      have hlen : vs.length = 1 := by simpa [Operator.wfArity, Expression.wfB] using hw
      have hpre : noDollarStr ((if q then f.qualified_name else f.quoted_name) ++ " " ++
          "=" ++ " ") = true :=
        noDollarStr_append _ _
          (noDollarStr_append _ _ (noDollarStr_append _ _ hfn (by decide)) (by decide))
          (by decide)
      rw [hlen, ph_single_value _ hpre i t ht]
      simp [List.range']
    case Ne =>
      have hlen : vs.length = 1 := by simpa [Operator.wfArity, Expression.wfB] using hw
      have hpre : noDollarStr ((if q then f.qualified_name else f.quoted_name) ++ " " ++
          "!=" ++ " ") = true :=
        noDollarStr_append _ _
          (noDollarStr_append _ _ (noDollarStr_append _ _ hfn (by decide)) (by decide))
          (by decide)
      rw [hlen, ph_single_value _ hpre i t ht]
      simp [List.range']
    case Gt =>
      have hlen : vs.length = 1 := by simpa [Operator.wfArity, Expression.wfB] using hw
      have hpre : noDollarStr ((if q then f.qualified_name else f.quoted_name) ++ " " ++
          ">" ++ " ") = true :=
        noDollarStr_append _ _
          (noDollarStr_append _ _ (noDollarStr_append _ _ hfn (by decide)) (by decide))
          (by decide)
      rw [hlen, ph_single_value _ hpre i t ht]
      simp [List.range']
    case Lt =>
      have hlen : vs.length = 1 := by simpa [Operator.wfArity, Expression.wfB] using hw
      have hpre : noDollarStr ((if q then f.qualified_name else f.quoted_name) ++ " " ++
          "<" ++ " ") = true :=
        noDollarStr_append _ _
          (noDollarStr_append _ _ (noDollarStr_append _ _ hfn (by decide)) (by decide))
          (by decide)
      rw [hlen, ph_single_value _ hpre i t ht]
      simp [List.range']
    case Gte =>
      have hlen : vs.length = 1 := by simpa [Operator.wfArity, Expression.wfB] using hw
      have hpre : noDollarStr ((if q then f.qualified_name else f.quoted_name) ++ " " ++
          ">=" ++ " ") = true :=
        noDollarStr_append _ _
          (noDollarStr_append _ _ (noDollarStr_append _ _ hfn (by decide)) (by decide))
          (by decide)
      rw [hlen, ph_single_value _ hpre i t ht]
      simp [List.range']
    case Lte =>
      have hlen : vs.length = 1 := by simpa [Operator.wfArity, Expression.wfB] using hw
      have hpre : noDollarStr ((if q then f.qualified_name else f.quoted_name) ++ " " ++
          "<=" ++ " ") = true :=
        noDollarStr_append _ _
          (noDollarStr_append _ _ (noDollarStr_append _ _ hfn (by decide)) (by decide))
          (by decide)
      rw [hlen, ph_single_value _ hpre i t ht]
      simp [List.range']
    case Like =>
      have hlen : vs.length = 1 := by simpa [Operator.wfArity, Expression.wfB] using hw
      have hpre : noDollarStr ((if q then f.qualified_name else f.quoted_name) ++ " " ++
          "LIKE" ++ " ") = true :=
        noDollarStr_append _ _
          (noDollarStr_append _ _ (noDollarStr_append _ _ hfn (by decide)) (by decide))
          (by decide)
      rw [hlen, ph_single_value _ hpre i t ht]
      simp [List.range']
  | And l r ihl ihr =>
    intro i q t hw hd ht
    simp only [Expression.wfB, Bool.and_eq_true] at hw
    simp only [Expression.namesNoDollar, Bool.and_eq_true] at hd
    rw [build_internal_and_eq]
    have hdata :
        (("(" ++ (l.build_internal_with_qualifier i q).1 ++ " AND " ++
            (r.build_internal_with_qualifier (l.build_internal_with_qualifier i q).2.2 q).1
            ++ ")").data ++ t)
          = '(' :: ((l.build_internal_with_qualifier i q).1.data ++
              (' ' :: 'A' :: 'N' :: 'D' :: ' ' ::
                ((r.build_internal_with_qualifier
                    (l.build_internal_with_qualifier i q).2.2 q).1.data ++ (')' :: t)))) := by
      simp [String.data_append]
    rw [hdata, phRun_cons_ne _ _ (by decide),
      ihl i q _ hw.1 hd.1 (headNotDigit_cons (by decide)),
      phRun_cons_ne _ _ (by decide), phRun_cons_ne _ _ (by decide),
      phRun_cons_ne _ _ (by decide), phRun_cons_ne _ _ (by decide),
      phRun_cons_ne _ _ (by decide),
      ihr _ q _ hw.2 hd.2 (headNotDigit_cons (by decide)),
      phRun_cons_ne _ _ (by decide)]
    rw [build_internal_next l i q, ← List.append_assoc, List.range'_append_1,
      List.length_append]
    simp [Nat.add_comm]
  | Or l r ihl ihr =>
    intro i q t hw hd ht
    simp only [Expression.wfB, Bool.and_eq_true] at hw
    simp only [Expression.namesNoDollar, Bool.and_eq_true] at hd
    rw [build_internal_or_eq]
    have hdata :
        (("(" ++ (l.build_internal_with_qualifier i q).1 ++ " OR " ++
            (r.build_internal_with_qualifier (l.build_internal_with_qualifier i q).2.2 q).1
            ++ ")").data ++ t)
          = '(' :: ((l.build_internal_with_qualifier i q).1.data ++
              (' ' :: 'O' :: 'R' :: ' ' ::
                ((r.build_internal_with_qualifier
                    (l.build_internal_with_qualifier i q).2.2 q).1.data ++ (')' :: t)))) := by
      simp [String.data_append]
    rw [hdata, phRun_cons_ne _ _ (by decide),
      ihl i q _ hw.1 hd.1 (headNotDigit_cons (by decide)),
      phRun_cons_ne _ _ (by decide), phRun_cons_ne _ _ (by decide),
      phRun_cons_ne _ _ (by decide), phRun_cons_ne _ _ (by decide),
      ihr _ q _ hw.2 hd.2 (headNotDigit_cons (by decide)),
      phRun_cons_ne _ _ (by decide)]
    rw [build_internal_next l i q, ← List.append_assoc, List.range'_append_1,
      List.length_append]
    simp [Nat.add_comm]

theorem map_dollar_range (i k : Nat) :
    (List.range k).map (fun j => dollarParam (i + j)) = (List.range' i k).map dollarParam := by
  rw [List.range'_eq_map_range, List.map_map]
  rfl

/-- C1: for every Expression tree satisfying the spec's arity invariant whose
identifiers are `$`-free, and every starting placeholder index `i` (with
either qualifier), the `$n` placeholders of the rendered SQL, read left to
right, are exactly the contiguous strictly increasing sequence
`i, i+1, ..., i+m-1` where `m` is the length of the returned value list — so
under positional binding the k-th bound value corresponds to the k-th
placeholder in the text; the returned next index is `i + m`; and
`Expression.build`, which starts at index 1, satisfies the same alignment. -/
theorem c1_placeholder_value_alignment (e : Expression) (i : Nat) (q : Bool)
    (hw : e.wfB = true) (hd : e.namesNoDollar = true) :
    extractPlaceholders (e.build_internal_with_qualifier i q).1
        = List.range' i (e.build_internal_with_qualifier i q).2.1.length
      ∧ (e.build_internal_with_qualifier i q).2.2
        = i + (e.build_internal_with_qualifier i q).2.1.length
      ∧ extractPlaceholders e.build.sql = List.range' 1 e.build.values.length := by
  refine ⟨?_, build_internal_next e i q, ?_⟩
  · have h := ph_build_internal e i q [] hw hd headNotDigit_nil
    simpa [extractPlaceholders, phRun] using h
  · have h := ph_build_internal e 1 false [] hw hd headNotDigit_nil
    simpa [extractPlaceholders, phRun, Expression.build, Expression.build_internal] using h

theorem c1_witness :
    (let e := Expression.And
        (Expression.comparison ⟨"id", "users", true⟩ .Eq (Value.I32 1))
        (Expression.comparison_multi ⟨"status", "users", false⟩ .In
          [Value.I32 1, Value.I32 2]);
      e.wfB = true ∧ e.namesNoDollar = true ∧
        (extractPlaceholders (e.build_internal_with_qualifier 4 false).1
            = List.range' 4 (e.build_internal_with_qualifier 4 false).2.1.length
          ∧ (e.build_internal_with_qualifier 4 false).2.2
            = 4 + (e.build_internal_with_qualifier 4 false).2.1.length
          ∧ extractPlaceholders e.build.sql = List.range' 1 e.build.values.length)) :=
  ⟨by decide, by decide,
    c1_placeholder_value_alignment _ 4 false (by decide) (by decide)⟩

/-- C2 counterexample: `in_list` on the empty list renders the literal
`"status" IN ()` — the naive empty-list SQL the claim says must not be
rendered — with an empty value list; no empty-list policy is applied. -/
theorem c2_counterexample :
    (((Field.new Int "status" "users" false).in_list []).build.sql = "\"status\" IN ()")
      ∧ ((Field.new Int "status" "users" false).in_list []).build.values = [] := by
  exact ⟨by decide, rfl⟩

/-- C2 (amended): for every field and every value list of length k,
`in_list` rendered at offset `i` produces `"f" IN ($i, ..., $(i+k-1))` with
the k converted values bound in order and next index `i+k`; in particular for
the empty list the code renders the literal `"f" IN ()` with no bound values —
no empty-list policy (rejection or tautologically false predicate) exists. -/
theorem c2_in_list_rendering (α : Type) [IntoValue α] (name table : String)
    (pk : Bool) (vs : List α) (i : Nat) :
    ((Field.new α name table pk).in_list vs).build_internal i
      = ("\"" ++ name ++ "\" IN (" ++
           joinSep ", " ((List.range' i vs.length).map dollarParam) ++ ")",
         vs.map IntoValue.into_value, i + vs.length) := by
  simp only [Field.in_list, Field.new, Field.info, Expression.comparison_multi,
    Expression.build_internal, Expression.build_internal_with_qualifier,
    FieldInfo.quoted_name, List.length_map]
  rw [map_dollar_range]
  simp only [Bool.false_eq_true, if_false, Prod.mk.injEq, and_true, true_and]
  apply String.ext
  simp [String.data_append, show ("\"" : String).data = ['\"'] from rfl,
    show (" IN (" : String).data = [' ', 'I', 'N', ' ', '('] from rfl,
    show ("\" IN (" : String).data = ['\"', ' ', 'I', 'N', ' ', '('] from rfl,
    show (")" : String).data = [')'] from rfl]

theorem c2_witness :
    ((((Field.new Int "status" "users" false).in_list [(1 : Int), 2, 3]).build_internal 2).1
        = "\"status\" IN ($2, $3, $4)")
      ∧ ((((Field.new Int "status" "users" false).in_list
            [(1 : Int), 2, 3]).build_internal 2).2.1
        = [Value.I64 1, Value.I64 2, Value.I64 3]) := by
  rw [c2_in_list_rendering Int "status" "users" false [(1 : Int), 2, 3] 2]
  exact ⟨by decide, rfl⟩

/-- C5 counterexample: `DeleteBuilder::<T, true>::new()` exists (the source
implements `new`/`Default` for every `FILTER_SET`), has no stored filter, and
its `build` renders an unconditional `DELETE FROM users` with no values — so
build/execute is reachable in a state where `filter` was never called, and an
unconditional DELETE is representable through the builder API. -/
theorem c5_counterexample :
    ((DeleteBuilder.new : DeleteBuilder true).filter_expr = none)
      ∧ ((DeleteBuilder.new : DeleteBuilder true).build "users").sql = "DELETE FROM users"
      ∧ ((DeleteBuilder.new : DeleteBuilder true).build "users").values = [] := by
  exact ⟨rfl, by decide, rfl⟩

/-- C5 (amended): starting from `UpdateBuilder::new` (state `(false,false)`),
a call sequence reaches the only type-state exposing build/execute —
`(true, true)` — exactly when it contains at least one `set` and at least one
`filter` call, so a no-SET or no-WHERE UPDATE is unrepresentable; a
`DeleteBuilder`, however, can be constructed by `new`/`Default` at any
`FILTER_SET`, and a call sequence from start flag `b` reaches the exposing
state `true` exactly when `b = true` or some `filter` call occurs — so the
unconditional DELETE is only unrepresentable from the `false` start state. -/
theorem c5_type_state :
    (∀ calls : List UpdateCall,
        updateBuildExposed (updateFlagsAfter calls)
          ↔ ((∃ f v, UpdateCall.set f v ∈ calls) ∧ (∃ e, UpdateCall.filter e ∈ calls)))
      ∧ (∀ (start : Bool) (calls : List DeleteCall),
          deleteBuildExposed (deleteFlagAfter start calls)
            ↔ (start = true ∨ ∃ e, DeleteCall.filter e ∈ calls)) := by
  have hupd : ∀ (calls : List UpdateCall) (fl : Bool × Bool),
      calls.foldl
          (fun flags c =>
            match c with
            | .set _ _ => (true, flags.2)
            | .filter _ => (flags.1, true)) fl
        = (fl.1 || calls.any (fun c => match c with | .set _ _ => true | _ => false),
           fl.2 || calls.any (fun c => match c with | .filter _ => true | _ => false)) := by
    intro calls
    induction calls with
    | nil => intro fl; simp
    | cons c rest ih =>
      intro fl
      cases c with
      | set f v => simp [List.foldl, ih]
      | filter e => simp [List.foldl, ih]
  have hdel : ∀ (start : Bool) (calls : List DeleteCall),
      deleteFlagAfter start calls
        = (start || calls.any (fun _ => true)) := by
    intro start calls
    induction calls generalizing start with
    | nil => simp [deleteFlagAfter]
    | cons c rest ih =>
      cases c with
      | filter e =>
        calc deleteFlagAfter start (DeleteCall.filter e :: rest)
            = deleteFlagAfter true rest := rfl
          _ = (true || rest.any fun _ => true) := ih true
          _ = (start || (DeleteCall.filter e :: rest).any fun _ => true) := by simp
  constructor
  · intro calls
    rw [updateBuildExposed, updateFlagsAfter, hupd calls (false, false)]
    simp only [Bool.false_or, Prod.mk.injEq, List.any_eq_true]
    constructor
    · rintro ⟨⟨x, hx, hpx⟩, ⟨y, hy, hpy⟩⟩
      constructor
      · cases x with
        | set f v => exact ⟨f, v, hx⟩
        | filter e => simp at hpx
      · cases y with
        | set f v => simp at hpy
        | filter e => exact ⟨e, hy⟩
    · rintro ⟨⟨f, v, hf⟩, ⟨e, he⟩⟩
      exact ⟨⟨UpdateCall.set f v, hf, rfl⟩, ⟨UpdateCall.filter e, he, rfl⟩⟩
  · intro start calls
    rw [deleteBuildExposed, hdel start calls]
    simp only [Bool.or_eq_true, List.any_eq_true]
    constructor
    · rintro (h | ⟨x, hx, -⟩)
      · exact Or.inl h
      · cases x with
        | filter e => exact Or.inr ⟨e, hx⟩
    · rintro (h | ⟨e, he⟩)
      · exact Or.inl h
      · exact Or.inr ⟨DeleteCall.filter e, he, trivial⟩

/-- C6: `And` nodes render as `(<left> AND <right>)` and `Or` nodes as
`(<left> OR <right>)`, with the left subtree rendered first at the incoming
index, the right subtree continuing at the index the left rendering returned,
and the node's values being left values followed by right values; hence
`a.and(b).or(c)` renders left-associatively as `((a AND b) OR c)` with the
values concatenated in that order. -/
theorem c6_and_or_rendering (a b c : Expression) (i : Nat) (q : Bool) :
    ((a.and b).build_internal_with_qualifier i q
        = ("(" ++ (a.build_internal_with_qualifier i q).1 ++ " AND " ++
             (b.build_internal_with_qualifier
               (a.build_internal_with_qualifier i q).2.2 q).1 ++ ")",
           (a.build_internal_with_qualifier i q).2.1 ++
             (b.build_internal_with_qualifier
               (a.build_internal_with_qualifier i q).2.2 q).2.1,
           (b.build_internal_with_qualifier
             (a.build_internal_with_qualifier i q).2.2 q).2.2))
      ∧ ((a.or b).build_internal_with_qualifier i q
        = ("(" ++ (a.build_internal_with_qualifier i q).1 ++ " OR " ++
             (b.build_internal_with_qualifier
               (a.build_internal_with_qualifier i q).2.2 q).1 ++ ")",
           (a.build_internal_with_qualifier i q).2.1 ++
             (b.build_internal_with_qualifier
               (a.build_internal_with_qualifier i q).2.2 q).2.1,
           (b.build_internal_with_qualifier
             (a.build_internal_with_qualifier i q).2.2 q).2.2))
      ∧ (((a.and b).or c).build.sql
          = "((" ++ (a.build_internal 1).1 ++ " AND " ++
              (b.build_internal (a.build_internal 1).2.2).1 ++ ") OR " ++
              (c.build_internal (b.build_internal (a.build_internal 1).2.2).2.2).1 ++ ")")
      ∧ (((a.and b).or c).build.values
          = (a.build_internal 1).2.1 ++ (b.build_internal (a.build_internal 1).2.2).2.1
              ++ (c.build_internal (b.build_internal (a.build_internal 1).2.2).2.2).2.1) := by
  refine ⟨build_internal_and_eq a b i q, build_internal_or_eq a b i q, ?_, ?_⟩
  · apply String.ext
    simp only [Expression.build, Expression.build_internal, Expression.and, Expression.or,
      build_internal_and_eq, build_internal_or_eq, String.data_append]
    simp [show ("((" : String).data = ['(', '('] from rfl,
      show ("(" : String).data = ['('] from rfl,
      show (") OR " : String).data = [')', ' ', 'O', 'R', ' '] from rfl,
      show (" OR " : String).data = [' ', 'O', 'R', ' '] from rfl,
      show (")" : String).data = [')'] from rfl]
  · rfl

/-- C9: each terminal operation of `InsertManyBuilder` on an empty payload
list short-circuits to its immediate result (`Sum.inl`) — an empty vector for
`returning_pk` and `returning_entity`, affected-row count 0 for `execute` —
producing no SQL statement and never reaching the executor. -/
theorem c9_empty_short_circuit (α β : Type) (tableName columns pkFieldName : String)
    (columnNames : List String) (k : Nat) :
    returning_pk_run α tableName columns pkFieldName k [] = Sum.inl []
      ∧ returning_entity_run β tableName columns columnNames k [] = Sum.inl []
      ∧ execute_run tableName columns k [] = Sum.inl 0 :=
  ⟨rfl, rfl, rfl⟩

/-- C10: `DeleteBuilder::new`/`Default` are available at every `FILTER_SET`
type-state, always storing an absent filter, and `build` on a
`DeleteBuilder::<T, true>` with no stored filter returns exactly
`DELETE FROM <table>` with no WHERE clause and an empty value list. -/
theorem c10_delete_new_unfiltered (F : Bool) (tableName : String) :
    ((DeleteBuilder.new : DeleteBuilder F).filter_expr = none)
      ∧ (DeleteBuilder.new : DeleteBuilder true).build tableName
          = ⟨"DELETE FROM " ++ tableName, []⟩ :=
  ⟨rfl, rfl⟩

/-- C7 counterexample: on a builder that already holds a filter, chaining
`.filter e1` then `.filter e2` left-associates — `((e0 AND e1) AND e2)` —
while `.filter (e1.and e2)` yields `(e0 AND (e1 AND e2))`, so the rendered
SQL strings differ and the claimed equivalence fails for that builder. -/
theorem c7_counterexample :
    ¬ (((((DeleteBuilder.new : DeleteBuilder false).filter
            (Expression.comparison ⟨"a", "t", false⟩ .Eq (Value.I32 1))).filter
            (Expression.comparison ⟨"b", "t", false⟩ .Eq (Value.I32 2))).filter
            (Expression.comparison ⟨"c", "t", false⟩ .Eq (Value.I32 3))).build "t"
        = (((DeleteBuilder.new : DeleteBuilder false).filter
            (Expression.comparison ⟨"a", "t", false⟩ .Eq (Value.I32 1))).filter
            ((Expression.comparison ⟨"b", "t", false⟩ .Eq (Value.I32 2)).and
              (Expression.comparison ⟨"c", "t", false⟩ .Eq (Value.I32 3)))).build "t") := by
  intro h
  have hsql := congrArg SqlResult.sql h
  revert hsql
  decide

/-- C7 (amended): for a SelectBuilder, UpdateBuilder, or DeleteBuilder whose
filter has not yet been set, calling filter twice equals calling it once with
the AND of the two expressions — `b.filter(e1).filter(e2) = b.filter(e1.and
e2)` as builders, hence with identical rendered SQL and values; on a builder
that already holds a filter each later call AND-combines left-associatively
(never OR), so the two chains then differ only in parenthesization. -/
theorem c7_filter_and_combine :
    (∀ (b : SelectBuilder) (e1 e2 : Expression), b.filter_expr = none →
        (b.filter e1).filter e2 = b.filter (e1.and e2))
      ∧ (∀ (S F : Bool) (b : UpdateBuilder S F) (e1 e2 : Expression), b.filter_expr = none →
          (b.filter e1).filter e2 = b.filter (e1.and e2))
      ∧ (∀ (F : Bool) (b : DeleteBuilder F) (e1 e2 : Expression), b.filter_expr = none →
          (b.filter e1).filter e2 = b.filter (e1.and e2)) := by
  refine ⟨?_, ?_, ?_⟩
  · intro b e1 e2 h
    cases b with
    | mk fe ob l o g j =>
      simp only at h
      subst h
      rfl
  · intro S F b e1 e2 h
    cases b with
    | mk ups fe =>
      simp only at h
      subst h
      rfl
  · intro F b e1 e2 h
    cases b with
    | mk fe =>
      simp only at h
      subst h
      rfl

theorem c7_witness :
    (((SelectBuilder.new.filter
          (Expression.comparison ⟨"a", "t", false⟩ .Eq (Value.I32 1))).filter
          (Expression.comparison ⟨"b", "t", false⟩ .Eq (Value.I32 2))
        = SelectBuilder.new.filter
            ((Expression.comparison ⟨"a", "t", false⟩ .Eq (Value.I32 1)).and
              (Expression.comparison ⟨"b", "t", false⟩ .Eq (Value.I32 2)))))
      ∧ ((UpdateBuilder.new.filter
            (Expression.comparison ⟨"a", "t", false⟩ .Eq (Value.I32 1))).filter
            (Expression.comparison ⟨"b", "t", false⟩ .Eq (Value.I32 2))
          = UpdateBuilder.new.filter
              ((Expression.comparison ⟨"a", "t", false⟩ .Eq (Value.I32 1)).and
                (Expression.comparison ⟨"b", "t", false⟩ .Eq (Value.I32 2))))
      ∧ (((DeleteBuilder.new : DeleteBuilder false).filter
            (Expression.comparison ⟨"a", "t", false⟩ .Eq (Value.I32 1))).filter
            (Expression.comparison ⟨"b", "t", false⟩ .Eq (Value.I32 2))
          = (DeleteBuilder.new : DeleteBuilder false).filter
              ((Expression.comparison ⟨"a", "t", false⟩ .Eq (Value.I32 1)).and
                (Expression.comparison ⟨"b", "t", false⟩ .Eq (Value.I32 2)))) :=
  ⟨c7_filter_and_combine.1 SelectBuilder.new _ _ rfl,
   c7_filter_and_combine.2.1 false false UpdateBuilder.new _ _ rfl,
   c7_filter_and_combine.2.2 false DeleteBuilder.new _ _ rfl⟩

theorem update_set_foldl (l : List (FieldInfo × Value)) :
    ∀ (s : String) (vs : List Value) (k : Nat),
      l.foldl
          (fun acc fv =>
            match acc, fv with
            | (sql, values, param_idx), (field, value) =>
              (sql ++ (if param_idx > 1 then ", " else "") ++
                 "\"" ++ field.name ++ "\" = " ++ dollarParam param_idx,
               values ++ [value], param_idx + 1))
          (s, vs, k)
        = (s ++ setClauseFrom k l, vs ++ l.map Prod.snd, k + l.length) := by
  induction l with
  | nil => intro s vs k; simp [setClauseFrom]
  | cons fv rest ih =>
    intro s vs k
    obtain ⟨f, v⟩ := fv
    simp only [List.foldl_cons]
    rw [ih]
    refine Prod.ext ?_ (Prod.ext ?_ ?_)
    · simp [setClauseFrom, String.append_assoc]
    · simp
    · simp only [List.length_cons]
      omega

theorem setClauseFrom_ge2 (l : List (FieldInfo × Value)) (hne : l ≠ []) :
    ∀ k, 2 ≤ k → setClauseFrom k l = ", " ++ joinSep ", " (assignsFrom k l) := by
  induction l with
  | nil => exact absurd rfl hne
  | cons fv rest ih =>
    intro k hk
    obtain ⟨f, v⟩ := fv
    have hgt : k > 1 := by omega
    cases rest with
    | nil =>
      simp only [setClauseFrom, assignsFrom, joinSep, if_pos hgt]
      apply String.ext
      simp [String.data_append]
    | cons fv2 rest2 =>
      obtain ⟨f2, v2⟩ := fv2
      have hih := ih (by simp) (k + 1) (by omega)
      rw [show setClauseFrom k ((f, v) :: (f2, v2) :: rest2)
            = (if k > 1 then ", " else "") ++ "\"" ++ f.name ++ "\" = " ++ dollarParam k ++
                setClauseFrom (k + 1) ((f2, v2) :: rest2) from rfl]
      rw [hih, if_pos hgt]
      simp only [assignsFrom, joinSep]
      apply String.ext
      simp [String.data_append]

theorem setClauseFrom_one (l : List (FieldInfo × Value)) :
    setClauseFrom 1 l = joinSep ", " (assignsFrom 1 l) := by
  cases l with
  | nil => rfl
  | cons fv rest =>
    obtain ⟨f, v⟩ := fv
    cases rest with
    | nil =>
      apply String.ext
      simp [setClauseFrom, assignsFrom, joinSep, String.data_append]
    | cons fv2 rest2 =>
      obtain ⟨f2, v2⟩ := fv2
      have h2 := setClauseFrom_ge2 ((f2, v2) :: rest2) (by simp) 2 (by omega)
      rw [show setClauseFrom 1 ((f, v) :: (f2, v2) :: rest2)
            = (if 1 > 1 then ", " else "") ++ "\"" ++ f.name ++ "\" = " ++ dollarParam 1 ++
                setClauseFrom 2 ((f2, v2) :: rest2) from rfl]
      rw [h2, if_neg (by omega)]
      simp only [assignsFrom, joinSep]
      apply String.ext
      simp [String.data_append]

/-- C4: for an UpdateBuilder in the `(true, true)` type-state holding the SET
assignments in call order and a filter expression, `build` returns
`UPDATE <table> SET "f1" = $1, ..., "fn" = $n WHERE <filter>` with the n
assignments numbered from `$1` in call order, the filter rendered with
placeholder offset `n+1`, and the value list equal to the SET values in call
order followed by the filter's values. -/
theorem c4_update_build (tableName : String) (updates : List (FieldInfo × Value))
    (fexpr : Expression) :
    UpdateBuilder.build ⟨updates, some fexpr⟩ tableName
      = ⟨"UPDATE " ++ tableName ++ " SET " ++ joinSep ", " (assignsFrom 1 updates) ++
           " WHERE " ++ (fexpr.build_with_offset (updates.length + 1)).1,
         updates.map Prod.snd ++ (fexpr.build_with_offset (updates.length + 1)).2.1⟩ := by
  simp only [UpdateBuilder.build]
  rw [update_set_foldl]
  rw [setClauseFrom_one]
  simp only [List.nil_append]
  rw [Nat.add_comm 1 updates.length]

theorem joinSep_concat (sep : String) :
    ∀ (xs : List String) (x : String), xs ≠ [] →
      joinSep sep (xs ++ [x]) = joinSep sep xs ++ sep ++ x := by
  intro xs
  induction xs with
  | nil => intro x hx; exact absurd rfl hx
  | cons a tail ih =>
    intro x _
    cases tail with
    | nil => simp [joinSep]
    | cons b tail2 =>
      have h1 : joinSep sep ((a :: b :: tail2) ++ [x])
          = a ++ sep ++ joinSep sep ((b :: tail2) ++ [x]) := rfl
      have h2 : joinSep sep (a :: b :: tail2) = a ++ sep ++ joinSep sep (b :: tail2) := rfl
      rw [h1, h2, ih x (by simp)]
      simp [String.append_assoc]

theorem batch_loop_gen :
    ∀ (m base : Nat),
      (List.range m).foldl
          (fun acc i => acc ++ (if i > 0 then "," else "") ++ "$" ++ decStr (base + i + 1)) ""
        = joinSep "," ((List.range' (base + 1) m).map (fun p => "$" ++ decStr p)) := by
  intro m
  induction m with
  | zero => intro base; rfl
  | succ m ih =>
    intro base
    rw [List.range_succ, List.foldl_append]
    simp only [List.foldl_cons, List.foldl_nil]
    rw [ih base, List.range'_concat (base + 1) m, List.map_append]
    simp only [List.map_cons, List.map_nil]
    cases m with
    | zero =>
      simp [joinSep]
    | succ m2 =>
      rw [joinSep_concat _ _ _ (by simp)]
      rw [show base + 1 + 1 * (m2 + 1) = base + (m2 + 1) + 1 by omega]
      apply String.ext
      simp [String.data_append]

theorem get_batch_insert_sql_eq (k idx : Nat) :
    get_batch_insert_sql k idx
      = "(" ++ joinSep "," ((List.range' (idx * k + 1) k).map (fun p => "$" ++ decStr p))
          ++ ")" := by
  unfold get_batch_insert_sql
  rw [batch_loop_gen k (idx * k)]

theorem build_values_sql_eq (k : Nat) (data : List (List Value)) :
    build_values_sql k data
      = joinSep ", " ((List.range data.length).map (get_batch_insert_sql k)) := by
  unfold build_values_sql
  congr 1
  rw [show (fun p : Nat × List Value => get_batch_insert_sql k p.1)
        = (get_batch_insert_sql k) ∘ Prod.fst from rfl]
  rw [← List.map_map, List.enum_eq_enumFrom, List.enumFrom_map_fst, List.range_eq_range']

theorem collect_batch_values_eq (data : List (List Value)) :
    collect_batch_values data = data.flatten := by
  unfold collect_batch_values
  suffices h : ∀ (n : Nat) (acc : List Value),
      (data.enumFrom n).foldl (fun acc p => acc ++ get_batch_values p.2 p.1) acc
        = acc ++ data.flatten by
    simpa [List.enum_eq_enumFrom] using h 0 []
  induction data with
  | nil => intro n acc; simp
  | cons d rest ih =>
    intro n acc
    rw [show List.enumFrom n (d :: rest) = (n, d) :: List.enumFrom (n + 1) rest from rfl]
    simp only [List.foldl_cons]
    rw [ih (n + 1) (acc ++ get_batch_values d n)]
    simp [get_batch_values, List.append_assoc]

/-- C8: for a batch INSERT of payloads each contributing `k` fields, the
VALUES tuple for the payload at 0-based row index `idx` uses exactly the
placeholders `$(idx*k+1)` through `$(idx*k+k)` (comma-separated inside
parentheses), the per-row tuples are joined with `", "` into one statement
fragment, and the collected bound values are the payloads' values in
row-major order; every payload's batch value sequence has length `k`. -/
theorem c8_batch_placeholders (k : Nat) (data : List (List Value)) (hk : 1 ≤ k)
    (h : ∀ p ∈ data, p.length = k) :
    build_values_sql k data
        = joinSep ", " ((List.range data.length).map (fun idx =>
            "(" ++ joinSep "," ((List.range' (idx * k + 1) k).map (fun p => "$" ++ decStr p))
              ++ ")"))
      ∧ collect_batch_values data = data.flatten
      ∧ ∀ (p : List Value) (idx : Nat), p ∈ data → (get_batch_values p idx).length = k := by
  refine ⟨?_, collect_batch_values_eq data, ?_⟩
  · rw [build_values_sql_eq]
    congr 1
    refine List.map_congr_left ?_
    intro idx _
    exact get_batch_insert_sql_eq k idx
  · intro p idx hp
    simpa [get_batch_values] using h p hp

theorem c8_witness :
    (let data : List (List Value) := [[Value.I32 1, Value.I32 2], [Value.I32 3, Value.I32 4],
        [Value.I32 5, Value.I32 6]];
      (1 ≤ 2) ∧ (∀ p ∈ data, p.length = 2)
        ∧ (build_values_sql 2 data
            = joinSep ", " ((List.range data.length).map (fun idx =>
                "(" ++ joinSep "," ((List.range' (idx * 2 + 1) 2).map
                  (fun p => "$" ++ decStr p)) ++ ")"))
          ∧ collect_batch_values data = data.flatten
          ∧ ∀ (p : List Value) (idx : Nat), p ∈ data → (get_batch_values p idx).length = 2)) :=
  ⟨by decide, by decide, c8_batch_placeholders 2 _ (by decide) (by decide)⟩

theorem select_joins_foldl (js : List JoinClause) :
    ∀ (parts : List String) (vals : List Value) (i : Nat),
      js.foldl
          (fun acc j =>
            match acc with
            | (parts, vals, param_idx) =>
              match j.on_expr.build_with_offset param_idx with
              | (on_sql, on_values, next_idx) =>
                (parts ++ [j.join_type.to_sql ++ " " ++ j.table ++ " ON " ++ on_sql],
                 vals ++ on_values, next_idx))
          (parts, vals, i)
        = (parts ++ (specJoinClauses js i).1, vals ++ (specJoinClauses js i).2.1,
           (specJoinClauses js i).2.2) := by
  induction js with
  | nil => intro parts vals i; simp [specJoinClauses]
  | cons j rest ih =>
    intro parts vals i
    rcases hj : j.on_expr.build_with_offset i with ⟨on_sql, on_values, next_idx⟩
    rw [List.foldl_cons]
    simp only [hj]
    rw [ih]
    simp [specJoinClauses, hj, List.append_assoc]

/-- C3: `SelectBuilder.build` emits, in this fixed order, `SELECT` of the
returning type's quoted column list `FROM` the entity's table, one clause per
join in the order added, `WHERE` the filter if present, `GROUP BY` if
non-empty, `ORDER BY` if non-empty, `LIMIT` if set, `OFFSET` if set; the
placeholder numbering starts at 1 and threads continuously through the join
ON predicates first and then the WHERE filter, and the value list is the join
values followed by the filter values — i.e. `build` coincides with the
spec-described rendering `selectBuildSpec` on every builder state. -/
theorem c3_select_build (b : SelectBuilder) (tableName : String)
    (columnNames : List String) :
    b.build tableName columnNames = selectBuildSpec b tableName columnNames := by
  obtain ⟨fe, ob, lim, off, gb, js⟩ := b
  simp only [SelectBuilder.build, selectBuildSpec]
  rw [select_joins_foldl]
  cases fe with
  | none =>
    cases lim <;> cases off <;>
      by_cases hg : gb.isEmpty <;> by_cases ho : ob.isEmpty <;>
        simp [hg, ho, List.append_assoc]
  | some e =>
    rcases hw : e.build_with_offset (specJoinClauses js 1).2.2 with ⟨ws, wv, wn⟩
    cases lim <;> cases off <;>
      by_cases hg : gb.isEmpty <;> by_cases ho : ob.isEmpty <;>
        simp [hw, hg, ho, List.append_assoc]

end Conservator
